import Mathlib

/-!
Verification development for the sonickit VoIP pipeline.

The pipeline orchestrator (`VoIPAudioPipeline` in
`src/bindings/python/examples/voip_pipeline.py`) is embedded as a pure
state-passing function over abstract collaborator states: each DSP
collaborator (AEC, denoiser, VAD, AGC, comfort noise, level meter, codec)
is an opaque stateful unit supplied as a record of state-transformer
functions, exactly mirroring the call structure of the Python source.

The Jitter Buffer is implemented in the native extension
`sonickit._sonickit`, whose source is not part of the repository checkout;
it is modelled from the spec (section 4.1): a timestamp-keyed,
time-ordered slot collection, a playout cursor, a target delay bounded by
the configured min/max delay, and late/duplicate/underrun counters.

Frames are lists of integer samples; encoded payloads are lists of bytes
(naturals). Timestamps are sample-clock naturals; delays are in samples.
-/

/-- Lookup of the stored frame at a given timestamp in a slot list. -/
def lookupSlot (ts : Nat) : List (Nat × List Int) → Option (List Int)
  | [] => none
  | (t, f) :: rest => if ts = t then some f else lookupSlot ts rest

/-- Insert a frame at its timestamp position, keeping the slot list
time-ordered (ascending timestamps). -/
def insertSlot (ts : Nat) (f : List Int) : List (Nat × List Int) → List (Nat × List Int)
  | [] => [(ts, f)]
  | (t, g) :: rest =>
    if ts < t then (ts, f) :: (t, g) :: rest else (t, g) :: insertSlot ts f rest

/-- Remove the slot stored at a given timestamp. -/
def eraseSlot (ts : Nat) : List (Nat × List Int) → List (Nat × List Int)
  | [] => []
  | (t, f) :: rest =>
    if t = ts then eraseSlot ts rest else (t, f) :: eraseSlot ts rest

/-- Modelled from the spec: the Jitter Buffer of section 4.1. Its
implementation lives in the native extension `sonickit._sonickit`, which is
not part of the repository checkout. State: a time-ordered collection of
pending decoded frames keyed by timestamp, a playout timestamp cursor, a
target delay bounded by the configured min/max delay, and accumulated
late/duplicate/underrun counters. All delays are in sample-clock units. -/
structure JitterBuffer where
  frame_size : Nat
  min_delay : Nat
  max_delay : Nat
  slots : List (Nat × List Int)
  cursor : Nat
  target_delay : Nat
  late_count : Nat
  duplicate_count : Nat
  underrun_count : Nat
  deriving Repr, DecidableEq

namespace JitterBuffer

/-- Modelled from the spec: `put(frame, timestamp, sequence)`. If a slot
already exists at `timestamp` the frame is a duplicate and is dropped,
incrementing the duplicate counter; if `timestamp` is older than the
playout cursor minus the target delay the frame is late and is dropped,
incrementing the late counter; otherwise the frame is inserted at its
timestamp position. The sequence number is advisory only and does not
affect buffering. The adaptive target-delay estimator (its safety factor
and variance update are left unspecified by the spec) and the
capacity-eviction policy (the capacity value is unspecified) are not
modelled: the target delay stays at its current clamped value. -/
def put (jb : JitterBuffer) (frame : List Int) (timestamp : Nat) (sequence : Nat) :
    JitterBuffer :=
  if (lookupSlot timestamp jb.slots).isSome then
    { jb with duplicate_count := jb.duplicate_count + 1 }
  else if timestamp + jb.target_delay < jb.cursor then
    { jb with late_count := jb.late_count + 1 }
  else
    { jb with slots := insertSlot timestamp frame jb.slots }

/-- Modelled from the spec: one frame-size step of `get`. If a slot exists
at the current cursor it is consumed and removed; otherwise synthesized
silence is substituted and the underrun counter increments. The cursor
advances by one frame size either way. -/
def getChunk (jb : JitterBuffer) : JitterBuffer × List Int :=
  match lookupSlot jb.cursor jb.slots with
  | some f =>
    ({ jb with slots := eraseSlot jb.cursor jb.slots,
               cursor := jb.cursor + jb.frame_size }, f)
  | none =>
    ({ jb with underrun_count := jb.underrun_count + 1,
               cursor := jb.cursor + jb.frame_size },
     List.replicate jb.frame_size 0)

/-- Modelled from the spec: `get` satisfied chunk by chunk, one frame-size
chunk per step. -/
def getN : Nat → JitterBuffer → JitterBuffer × List Int
  | 0, jb => (jb, [])
  | k + 1, jb =>
    let step := jb.getChunk
    let rest := getN k step.1
    (rest.1, step.2 ++ rest.2)

/-- Modelled from the spec: `get(num_samples)`, where `num_samples` is a
positive multiple of the buffer's native frame size. -/
def get (jb : JitterBuffer) (num_samples : Nat) : JitterBuffer × List Int :=
  getN (num_samples / jb.frame_size) jb

/-- Modelled from the spec: `reset()` drops all pending slots, resets the
cursor and the target delay to the initial configuration, and zeroes the
counters. -/
def reset (jb : JitterBuffer) : JitterBuffer :=
  { jb with slots := [], cursor := 0, target_delay := jb.min_delay,
            late_count := 0, duplicate_count := 0, underrun_count := 0 }

/-- Well-formedness: a positive frame size, and every stored frame has
exactly the native frame size. -/
def WF (jb : JitterBuffer) : Prop :=
  0 < jb.frame_size ∧ ∀ sl ∈ jb.slots, sl.2.length = jb.frame_size

instance (jb : JitterBuffer) : Decidable jb.WF := by
  unfold WF; infer_instance

end JitterBuffer

/-- Lookup of the frame carried at a given timestamp in a list of
`(timestamp, sequence, frame)` packets. -/
def findFrame (ts : Nat) : List (Nat × Nat × List Int) → Option (List Int)
  | [] => none
  | (t, _, f) :: rest => if ts = t then some f else findFrame ts rest

/-- Feed a list of `(timestamp, sequence, frame)` packets into the buffer
in order, one `put` per packet. -/
def putList (jb : JitterBuffer) : List (Nat × Nat × List Int) → JitterBuffer
  | [] => jb
  | (t, q, f) :: rest => putList (jb.put f t q) rest

/-- The DSP collaborators of the pipeline, each an opaque stateful unit
with the contract of spec section 6, given as explicit state transformers
over abstract state types `A` (AEC), `D` (denoiser), `V` (VAD), `G` (AGC),
`C` (comfort noise), `L` (level meter), `K` (codec); `R` is the type of
level-meter readings. -/
structure Collabs (A D V G C L K R : Type) where
  aec_process : A → List Int → List Int → A × List Int
  denoiser_process : D → List Int → D × List Int
  vad_is_speech : V → List Int → V × Bool
  agc_process : G → List Int → G × List Int
  comfort_analyze : C → List Int → C
  level_process : L → List Int → L
  level_get_db : L → R
  codec_encode : K → List Int → K × List Nat
  codec_decode : K → List Nat → K × List Int
  aec_reset : A → A
  denoiser_reset : D → D
  vad_reset : V → V
  agc_reset : G → G
  comfort_reset : C → C
  level_reset : L → L

/-- The state of a `VoIPAudioPipeline` object from
`src/bindings/python/examples/voip_pipeline.py`: the collaborator states,
the jitter buffer, the frame configuration and the statistics counters of
the `self.stats` dictionary. -/
structure PState (A D V G C L K : Type) where
  sample_rate : Nat
  frame_size : Nat
  aec : A
  denoiser : D
  vad : V
  agc : G
  comfort : C
  level : L
  codec : K
  jitter : JitterBuffer
  frames_processed : Nat
  speech_frames : Nat
  silence_frames : Nat
  bytes_encoded : Nat
  packets_sent : Nat
  packets_received : Nat

namespace VoIPAudioPipeline

variable {E A D V G C L K R : Type}

/-- `VoIPAudioPipeline.process_capture(captured, playback)`: echo-cancel,
denoise, classify with the VAD, then either AGC + level meter + encode on
the speech branch or comfort-noise analysis on the silence branch, updating
the statistics exactly as the Python source does. Returns the new pipeline
state and the encoded packet, or `none` for silence. -/
def process_capture (cb : Collabs A D V G C L K R) (s : PState A D V G C L K)
    (captured playback : List Int) : PState A D V G C L K × Option (List Nat) :=
  let ec := cb.aec_process s.aec captured playback
  let dn := cb.denoiser_process s.denoiser ec.2
  let vd := cb.vad_is_speech s.vad dn.2
  let s1 : PState A D V G C L K :=
    { s with aec := ec.1, denoiser := dn.1, vad := vd.1,
             frames_processed := s.frames_processed + 1 }
  if vd.2 then
    let ag := cb.agc_process s1.agc dn.2
    let lv := cb.level_process s1.level ag.2
    let en := cb.codec_encode s1.codec ag.2
    ({ s1 with agc := ag.1, level := lv, codec := en.1,
               speech_frames := s1.speech_frames + 1,
               bytes_encoded := s1.bytes_encoded + en.2.length }, some en.2)
  else
    let cn := cb.comfort_analyze s1.comfort dn.2
    ({ s1 with comfort := cn,
               silence_frames := s1.silence_frames + 1 }, none)

/-- `VoIPAudioPipeline.receive_packet(encoded, timestamp, sequence)`:
decode via the codec collaborator, put the decoded frame into the jitter
buffer, and count the packet as received. -/
def receive_packet (cb : Collabs A D V G C L K R) (s : PState A D V G C L K)
    (encoded : List Nat) (timestamp sequence : Nat) : PState A D V G C L K :=
  let de := cb.codec_decode s.codec encoded
  { s with codec := de.1,
           jitter := s.jitter.put de.2 timestamp sequence,
           packets_received := s.packets_received + 1 }

/-- `VoIPAudioPipeline.get_playback_audio()`: pull one frame of playback
audio from the jitter buffer. The Python method takes no sample-count
argument; it always requests `self.frame_size` samples. -/
def get_playback_audio (s : PState A D V G C L K) :
    PState A D V G C L K × List Int :=
  let r := s.jitter.get s.frame_size
  ({ s with jitter := r.1 }, r.2)

/-- Written to the spec's words for the refinement comparison of
`get_playback_audio`: spec section 4.2 declares
`get_playback_audio(num_samples)` and says it delegates directly to the
Jitter Buffer's `get`, with no DSP applied on the way out. -/
def get_playback_audio_spec (s : PState A D V G C L K) (num_samples : Nat) :
    PState A D V G C L K × List Int :=
  let r := s.jitter.get num_samples
  ({ s with jitter := r.1 }, r.2)

/-- `VoIPAudioPipeline.get_level_db()`: read the level meter. -/
def get_level_db (cb : Collabs A D V G C L K R) (s : PState A D V G C L K) : R :=
  cb.level_get_db s.level

/-- `VoIPAudioPipeline.reset()`: reset every DSP collaborator and the
jitter buffer. The `self.stats` dictionary is not touched. -/
def reset (cb : Collabs A D V G C L K R) (s : PState A D V G C L K) :
    PState A D V G C L K :=
  { s with aec := cb.aec_reset s.aec,
           denoiser := cb.denoiser_reset s.denoiser,
           vad := cb.vad_reset s.vad,
           agc := cb.agc_reset s.agc,
           comfort := cb.comfort_reset s.comfort,
           level := cb.level_reset s.level,
           jitter := s.jitter.reset }

/-- The VAD classification `process_capture` computes for a captured
frame from a given pipeline state: the speech decision on the denoised,
echo-cancelled frame. -/
def classifies (cb : Collabs A D V G C L K R) (s : PState A D V G C L K)
    (captured playback : List Int) : Bool :=
  (cb.vad_is_speech s.vad
    (cb.denoiser_process s.denoiser
      (cb.aec_process s.aec captured playback).2).2).2

/-- Run `process_capture` over a list of `(captured, playback)` frame
pairs, threading the pipeline state. -/
def processCaptureRun (cb : Collabs A D V G C L K R) :
    PState A D V G C L K → List (List Int × List Int) → PState A D V G C L K
  | s, [] => s
  | s, (c, p) :: rest => processCaptureRun cb (process_capture cb s c p).1 rest

/-- Every frame pair in the list classifies as silence at the pipeline
state current when it is processed. -/
def allSilent (cb : Collabs A D V G C L K R) :
    PState A D V G C L K → List (List Int × List Int) → Bool
  | _, [] => true
  | s, (c, p) :: rest =>
    !(classifies cb s c p) && allSilent cb (process_capture cb s c p).1 rest

/-- The collaborators again, with each call allowed to raise: a raising
call is an `Except.error`. Python collaborator faults propagate; `E` is
the exception type. -/
structure CollabsE (E A D V G C L K : Type) where
  aec_process : A → List Int → List Int → Except E (A × List Int)
  denoiser_process : D → List Int → Except E (D × List Int)
  vad_is_speech : V → List Int → Except E (V × Bool)
  agc_process : G → List Int → Except E (G × List Int)
  comfort_analyze : C → List Int → Except E C
  level_process : L → List Int → Except E L
  codec_encode : K → List Int → Except E (K × List Nat)

/-- `VoIPAudioPipeline.process_capture` with collaborator faults made
explicit. There is no `try`/`except` in the Python method, so an exception
raised by a collaborator propagates to the caller; the mutations performed
before the raising call persist on the pipeline object. The result is the
pipeline state as left behind, paired with either the normal return value
or the propagated exception. -/
def process_captureE (cb : CollabsE E A D V G C L K) (s : PState A D V G C L K)
    (captured playback : List Int) :
    PState A D V G C L K × Except E (Option (List Nat)) :=
  match cb.aec_process s.aec captured playback with
  | .error e => (s, .error e)
  | .ok (a1, echo_cancelled) =>
    let s := { s with aec := a1 }
    match cb.denoiser_process s.denoiser echo_cancelled with
    | .error e => (s, .error e)
    | .ok (d1, denoised) =>
      let s := { s with denoiser := d1 }
      match cb.vad_is_speech s.vad denoised with
      | .error e => (s, .error e)
      | .ok (v1, is_speech) =>
        let s := { s with vad := v1, frames_processed := s.frames_processed + 1 }
        if is_speech then
          match cb.agc_process s.agc denoised with
          | .error e => (s, .error e)
          | .ok (g1, normalized) =>
            let s := { s with agc := g1 }
            match cb.level_process s.level normalized with
            | .error e => (s, .error e)
            | .ok l1 =>
              let s := { s with level := l1 }
              match cb.codec_encode s.codec normalized with
              | .error e => (s, .error e)
              | .ok (k1, encoded) =>
                ({ s with codec := k1,
                          speech_frames := s.speech_frames + 1,
                          bytes_encoded := s.bytes_encoded + encoded.length },
                 .ok (some encoded))
        else
          match cb.comfort_analyze s.comfort denoised with
          | .error e => (s, .error e)
          | .ok c1 =>
            ({ s with comfort := c1,
                      silence_frames := s.silence_frames + 1 }, .ok none)

end VoIPAudioPipeline

/-- The playout stream a slot list yields from a given cursor: `k`
frame-size chunks, each the stored frame at its cursor position or
synthesized silence. -/
def chunksFrom (slots : List (Nat × List Int)) (cursor fs : Nat) : Nat → List Int
  | 0 => []
  | k + 1 =>
    (match lookupSlot cursor slots with
     | some f => f
     | none => List.replicate fs 0) ++ chunksFrom slots (cursor + fs) fs k

/-- The playout stream expected from a list of inserted
`(timestamp, sequence, frame)` packets, read off in ascending timestamp
order from a given cursor: `k` frame-size chunks, each the inserted frame
at its cursor position or synthesized silence. -/
def expectedPlayout (L : List (Nat × Nat × List Int)) (cursor fs : Nat) : Nat → List Int
  | 0 => []
  | k + 1 =>
    (match findFrame cursor L with
     | some f => f
     | none => List.replicate fs 0) ++ expectedPlayout L (cursor + fs) fs k

/-- A concrete jitter buffer in its initial state, configured as the
example pipeline does: 16 kHz, 20 ms frames (320 samples), 40 ms minimum
delay (640 samples), 200 ms maximum delay (3200 samples). -/
def demoJB : JitterBuffer :=
  { frame_size := 320, min_delay := 640, max_delay := 3200, slots := [],
    cursor := 0, target_delay := 640, late_count := 0, duplicate_count := 0,
    underrun_count := 0 }

/-- The spec's reordered-arrival scenario: the packet for timestamp 640
(sequence 2) arrives before the packet for timestamp 320 (sequence 1),
after the packet for timestamp 0 (sequence 0); all within the delay
window. -/
def reorderScenario : List (Nat × Nat × List Int) :=
  [(0, 0, List.replicate 320 1),
   (640, 2, List.replicate 320 3),
   (320, 1, List.replicate 320 2)]

/-- A concrete pipeline state over trivial collaborator states, used to
evaluate the embedding at explicit inputs. -/
def demoState : PState Unit Unit Unit Unit Unit Unit Unit :=
  { sample_rate := 16000, frame_size := 320, aec := (), denoiser := (),
    vad := (), agc := (), comfort := (), level := (), codec := (),
    jitter := demoJB, frames_processed := 0, speech_frames := 0,
    silence_frames := 0, bytes_encoded := 0, packets_sent := 0,
    packets_received := 0 }

/-- A concrete collaborator set over trivial states whose VAD classifies
every frame as silence. -/
def silentCollabs : Collabs Unit Unit Unit Unit Unit Unit Unit Nat :=
  { aec_process := fun _ c _ => ((), c),
    denoiser_process := fun _ f => ((), f),
    vad_is_speech := fun _ _ => ((), false),
    agc_process := fun _ f => ((), f),
    comfort_analyze := fun _ _ => (),
    level_process := fun _ _ => (),
    level_get_db := fun _ => 0,
    codec_encode := fun _ f => ((), f.map Int.toNat),
    codec_decode := fun _ b => ((), b.map Int.ofNat),
    aec_reset := id, denoiser_reset := id, vad_reset := id, agc_reset := id,
    comfort_reset := id, level_reset := id }

/-- A concrete fallible collaborator set whose VAD classifies every frame
as speech and whose AGC raises exception `7`. -/
def faultyCollabs : VoIPAudioPipeline.CollabsE Nat Unit Unit Unit Unit Unit Unit Unit :=
  { aec_process := fun _ c _ => .ok ((), c),
    denoiser_process := fun _ f => .ok ((), f),
    vad_is_speech := fun _ _ => .ok ((), true),
    agc_process := fun _ _ => .error 7,
    comfort_analyze := fun _ _ => .ok (),
    level_process := fun _ _ => .ok (),
    codec_encode := fun _ f => .ok ((), f.map Int.toNat) }

/-- C1: every `process_capture` call increments `frames_processed` by
exactly one; if the VAD classifies the denoised frame as speech,
`speech_frames` increments by one, `bytes_encoded` increments by the
length of the encoded payload and the encoded payload is returned;
otherwise `silence_frames` increments by one, `speech_frames` and
`bytes_encoded` are unchanged and no payload is returned. -/
theorem process_capture_stats_spec (cb : Collabs A D V G C L K R)
    (s : PState A D V G C L K) (captured playback : List Int) :
    let dn := cb.denoiser_process s.denoiser
      (cb.aec_process s.aec captured playback).2
    let sp := (cb.vad_is_speech s.vad dn.2).2
    let en := (cb.codec_encode s.codec (cb.agc_process s.agc dn.2).2).2
    let r := VoIPAudioPipeline.process_capture cb s captured playback
    r.1.frames_processed = s.frames_processed + 1 ∧
    r.1.speech_frames = s.speech_frames + (if sp then 1 else 0) ∧
    r.1.silence_frames = s.silence_frames + (if sp then 0 else 1) ∧
    r.1.bytes_encoded = s.bytes_encoded + (if sp then en.length else 0) ∧
    r.2 = (if sp then some en else none) := by
  cases hv : (cb.vad_is_speech s.vad (cb.denoiser_process s.denoiser
      (cb.aec_process s.aec captured playback).2).2).2 <;>
    simp [VoIPAudioPipeline.process_capture, hv]

/-- C4: `reset()` on the pipeline resets every DSP collaborator and the
jitter buffer but leaves every accumulated statistics counter unchanged. -/
theorem reset_preserves_stats (cb : Collabs A D V G C L K R)
    (s : PState A D V G C L K) :
    let r := VoIPAudioPipeline.reset cb s
    r.frames_processed = s.frames_processed ∧
    r.speech_frames = s.speech_frames ∧
    r.silence_frames = s.silence_frames ∧
    r.bytes_encoded = s.bytes_encoded ∧
    r.packets_sent = s.packets_sent ∧
    r.packets_received = s.packets_received ∧
    r.aec = cb.aec_reset s.aec ∧
    r.denoiser = cb.denoiser_reset s.denoiser ∧
    r.vad = cb.vad_reset s.vad ∧
    r.agc = cb.agc_reset s.agc ∧
    r.comfort = cb.comfort_reset s.comfort ∧
    r.level = cb.level_reset s.level ∧
    r.jitter = s.jitter.reset := by
  simp [VoIPAudioPipeline.reset]

/-- C5: `process_capture` runs its stages in the fixed order: echo
cancellation on `(captured, playback)` first, then denoising of the
echo-cancelled frame, then VAD classification of the denoised frame; the
AGC is applied (to the denoised frame) only on the branch classified as
speech, and comfort-noise analysis (of the denoised frame) only on the
silence branch. -/
theorem process_capture_stage_order (cb : Collabs A D V G C L K R)
    (s : PState A D V G C L K) (captured playback : List Int) :
    let ec := cb.aec_process s.aec captured playback
    let dn := cb.denoiser_process s.denoiser ec.2
    let vd := cb.vad_is_speech s.vad dn.2
    let r := VoIPAudioPipeline.process_capture cb s captured playback
    r.1.aec = ec.1 ∧
    r.1.denoiser = dn.1 ∧
    r.1.vad = vd.1 ∧
    r.1.agc = (if vd.2 then (cb.agc_process s.agc dn.2).1 else s.agc) ∧
    r.1.level =
      (if vd.2 then cb.level_process s.level (cb.agc_process s.agc dn.2).2
       else s.level) ∧
    r.1.codec =
      (if vd.2 then (cb.codec_encode s.codec (cb.agc_process s.agc dn.2).2).1
       else s.codec) ∧
    r.1.comfort =
      (if vd.2 then s.comfort else cb.comfort_analyze s.comfort dn.2) := by
  cases hv : (cb.vad_is_speech s.vad (cb.denoiser_process s.denoiser
      (cb.aec_process s.aec captured playback).2).2).2 <;>
    simp [VoIPAudioPipeline.process_capture, hv]

/-- C6: `receive_packet(encoded, timestamp, sequence)` decodes the payload
via the codec collaborator, forwards the decoded frame with its timestamp
and sequence into the jitter buffer's `put`, and increments
`packets_received` by exactly one unconditionally — in particular also
when `put` drops the packet as late or duplicate. -/
theorem receive_packet_spec (cb : Collabs A D V G C L K R)
    (s : PState A D V G C L K) (encoded : List Nat) (timestamp sequence : Nat) :
    let r := VoIPAudioPipeline.receive_packet cb s encoded timestamp sequence
    r.packets_received = s.packets_received + 1 ∧
    r.jitter = s.jitter.put (cb.codec_decode s.codec encoded).2 timestamp sequence ∧
    r.codec = (cb.codec_decode s.codec encoded).1 := by
  simp [VoIPAudioPipeline.receive_packet]

/-- C7: a `put` at a timestamp for which a slot already exists leaves the
slot list unchanged (so the stored-slot count never increases) and
increments the duplicate counter by exactly one. -/
theorem put_duplicate_spec (jb : JitterBuffer) (frame : List Int)
    (timestamp sequence : Nat)
    (h : (lookupSlot timestamp jb.slots).isSome = true) :
    (jb.put frame timestamp sequence).slots = jb.slots ∧
    (jb.put frame timestamp sequence).slots.length = jb.slots.length ∧
    (jb.put frame timestamp sequence).duplicate_count = jb.duplicate_count + 1 := by
  simp [JitterBuffer.put, h]

/-- C7 witness: a duplicate `put` at timestamp 320 on a buffer that
already stores a slot there. -/
theorem put_duplicate_spec_witness :
    (lookupSlot 320 ({ demoJB with
        slots := [(320, List.replicate 320 1)] } : JitterBuffer).slots).isSome = true ∧
    (({ demoJB with slots := [(320, List.replicate 320 1)] } : JitterBuffer).put
        (List.replicate 320 2) 320 7).slots =
      ({ demoJB with slots := [(320, List.replicate 320 1)] } : JitterBuffer).slots ∧
    (({ demoJB with slots := [(320, List.replicate 320 1)] } : JitterBuffer).put
        (List.replicate 320 2) 320 7).slots.length =
      ({ demoJB with slots := [(320, List.replicate 320 1)] } : JitterBuffer).slots.length ∧
    (({ demoJB with slots := [(320, List.replicate 320 1)] } : JitterBuffer).put
        (List.replicate 320 2) 320 7).duplicate_count =
      ({ demoJB with slots := [(320, List.replicate 320 1)] } : JitterBuffer).duplicate_count + 1 :=
  ⟨by decide,
   put_duplicate_spec { demoJB with slots := [(320, List.replicate 320 1)] }
     (List.replicate 320 2) 320 7 (by decide)⟩

set_option maxRecDepth 8000 in
/-- C8 counterexample: the claim says `get_playback_audio(num_samples)`
returns, for every `num_samples`, exactly what the jitter buffer's `get`
yields for that request; but the method takes no sample-count argument
and always requests the pipeline's `frame_size`, so at a pipeline with
`frame_size = 320` and requested `num_samples = 640` the outputs differ. -/
theorem get_playback_audio_not_parametric :
    (VoIPAudioPipeline.get_playback_audio demoState).2 ≠
      (VoIPAudioPipeline.get_playback_audio_spec demoState 640).2 := by
  decide

/-- C8 (amended): `get_playback_audio()` takes no sample-count argument;
it delegates directly to the jitter buffer's `get` for the pipeline's
configured `frame_size`, returning exactly the samples that `get` yields,
with no DSP applied on the way out (every collaborator state and every
statistics counter is left unchanged). -/
theorem get_playback_audio_delegates (s : PState A D V G C L K) :
    let r := VoIPAudioPipeline.get_playback_audio s
    r.2 = (s.jitter.get s.frame_size).2 ∧
    r.1.jitter = (s.jitter.get s.frame_size).1 ∧
    r.1.aec = s.aec ∧ r.1.denoiser = s.denoiser ∧ r.1.vad = s.vad ∧
    r.1.agc = s.agc ∧ r.1.comfort = s.comfort ∧ r.1.level = s.level ∧
    r.1.codec = s.codec ∧
    r.1.frames_processed = s.frames_processed ∧
    r.1.speech_frames = s.speech_frames ∧
    r.1.silence_frames = s.silence_frames ∧
    r.1.bytes_encoded = s.bytes_encoded ∧
    r.1.packets_sent = s.packets_sent ∧
    r.1.packets_received = s.packets_received ∧
    r = VoIPAudioPipeline.get_playback_audio_spec s s.frame_size := by
  simp [VoIPAudioPipeline.get_playback_audio,
        VoIPAudioPipeline.get_playback_audio_spec]

/-- C10: if a collaborator invoked on the speech branch of
`process_capture` (AGC, level meter, or codec encode) raises, the
exception propagates to the caller with `frames_processed` already
incremented by one for that call, while `speech_frames` and
`bytes_encoded` remain unchanged and no payload is returned. -/
theorem process_capture_fault_stats (cb : VoIPAudioPipeline.CollabsE E A D V G C L K)
    (s : PState A D V G C L K) (captured playback : List Int)
    (a1 : A) (f1 : List Int) (d1 : D) (f2 : List Int) (v1 : V) (e : E)
    (h1 : cb.aec_process s.aec captured playback = .ok (a1, f1))
    (h2 : cb.denoiser_process s.denoiser f1 = .ok (d1, f2))
    (h3 : cb.vad_is_speech s.vad f2 = .ok (v1, true))
    (h4 : cb.agc_process s.agc f2 = .error e ∨
          (∃ g1 n, cb.agc_process s.agc f2 = .ok (g1, n) ∧
            cb.level_process s.level n = .error e) ∨
          (∃ g1 n l1, cb.agc_process s.agc f2 = .ok (g1, n) ∧
            cb.level_process s.level n = .ok l1 ∧
            cb.codec_encode s.codec n = .error e)) :
    let r := VoIPAudioPipeline.process_captureE cb s captured playback
    r.2 = .error e ∧
    r.1.frames_processed = s.frames_processed + 1 ∧
    r.1.speech_frames = s.speech_frames ∧
    r.1.bytes_encoded = s.bytes_encoded := by
  rcases h4 with h4 | ⟨g1, n, h4, h5⟩ | ⟨g1, n, l1, h4, h5, h6⟩
  · simp [VoIPAudioPipeline.process_captureE, h1, h2, h3, h4]
  · simp [VoIPAudioPipeline.process_captureE, h1, h2, h3, h4, h5]
  · simp [VoIPAudioPipeline.process_captureE, h1, h2, h3, h4, h5, h6]

/-- C10 witness: a pipeline whose AGC raises exception 7 on a frame the
VAD classifies as speech. -/
theorem process_capture_fault_stats_witness :
    (faultyCollabs.aec_process demoState.aec [1] [2] = .ok ((), [1]) ∧
     faultyCollabs.denoiser_process demoState.denoiser [1] = .ok ((), [1]) ∧
     faultyCollabs.vad_is_speech demoState.vad [1] = .ok ((), true) ∧
     faultyCollabs.agc_process demoState.agc [1] = .error 7) ∧
    ((VoIPAudioPipeline.process_captureE faultyCollabs demoState [1] [2]).2 = .error 7 ∧
     (VoIPAudioPipeline.process_captureE faultyCollabs demoState [1] [2]).1.frames_processed =
       demoState.frames_processed + 1 ∧
     (VoIPAudioPipeline.process_captureE faultyCollabs demoState [1] [2]).1.speech_frames =
       demoState.speech_frames ∧
     (VoIPAudioPipeline.process_captureE faultyCollabs demoState [1] [2]).1.bytes_encoded =
       demoState.bytes_encoded) :=
  ⟨⟨rfl, rfl, rfl, rfl⟩,
   process_capture_fault_stats faultyCollabs demoState [1] [2] () [1] () [1] () 7
     rfl rfl rfl (Or.inl rfl)⟩

/-- On the silence branch a single `process_capture` call leaves the AGC,
level-meter and codec states untouched. -/
theorem process_capture_silence_effect (cb : Collabs A D V G C L K R)
    (s : PState A D V G C L K) (captured playback : List Int)
    (h : VoIPAudioPipeline.classifies cb s captured playback = false) :
    (VoIPAudioPipeline.process_capture cb s captured playback).1.agc = s.agc ∧
    (VoIPAudioPipeline.process_capture cb s captured playback).1.level = s.level ∧
    (VoIPAudioPipeline.process_capture cb s captured playback).1.codec = s.codec := by
  unfold VoIPAudioPipeline.classifies at h
  simp [VoIPAudioPipeline.process_capture, h]

/-- C9: over any run of capture frames each of which the VAD classifies as
silence, the AGC, the level meter and the codec are never invoked, so
their states are unchanged; in particular `get_level_db` after the run
still reports exactly what it reported before the run (i.e. the level of
the most recently processed speech frame). -/
theorem silence_run_preserves_level (cb : Collabs A D V G C L K R)
    (s : PState A D V G C L K) (frames : List (List Int × List Int))
    (h : VoIPAudioPipeline.allSilent cb s frames = true) :
    let r := VoIPAudioPipeline.processCaptureRun cb s frames
    r.agc = s.agc ∧ r.level = s.level ∧ r.codec = s.codec ∧
    VoIPAudioPipeline.get_level_db cb r = VoIPAudioPipeline.get_level_db cb s := by
  induction frames generalizing s with
  | nil =>
    simp [VoIPAudioPipeline.processCaptureRun]
  | cons fp rest ih =>
    obtain ⟨c, p⟩ := fp
    rw [VoIPAudioPipeline.allSilent, Bool.and_eq_true, Bool.not_eq_true'] at h
    obtain ⟨hc, hrest⟩ := h
    have hstep := process_capture_silence_effect cb s c p hc
    have htail := ih (VoIPAudioPipeline.process_capture cb s c p).1 hrest
    simp only [VoIPAudioPipeline.processCaptureRun] at htail ⊢
    refine ⟨?_, ?_, ?_, ?_⟩
    · rw [htail.1, hstep.1]
    · rw [htail.2.1, hstep.2.1]
    · rw [htail.2.2.1, hstep.2.2]
    · rw [htail.2.2.2]
      simp [VoIPAudioPipeline.get_level_db, hstep.2.1]

/-- C9 witness: two consecutive silence-classified frames on the demo
pipeline leave the AGC, level-meter and codec states and the reported
level unchanged. -/
theorem silence_run_preserves_level_witness :
    VoIPAudioPipeline.allSilent silentCollabs demoState
      [([1, 2], [3, 4]), ([5, 6], [7, 8])] = true ∧
    ((VoIPAudioPipeline.processCaptureRun silentCollabs demoState
        [([1, 2], [3, 4]), ([5, 6], [7, 8])]).agc = demoState.agc ∧
     (VoIPAudioPipeline.processCaptureRun silentCollabs demoState
        [([1, 2], [3, 4]), ([5, 6], [7, 8])]).level = demoState.level ∧
     (VoIPAudioPipeline.processCaptureRun silentCollabs demoState
        [([1, 2], [3, 4]), ([5, 6], [7, 8])]).codec = demoState.codec ∧
     VoIPAudioPipeline.get_level_db silentCollabs
        (VoIPAudioPipeline.processCaptureRun silentCollabs demoState
          [([1, 2], [3, 4]), ([5, 6], [7, 8])]) =
       VoIPAudioPipeline.get_level_db silentCollabs demoState) :=
  ⟨by decide,
   silence_run_preserves_level silentCollabs demoState
     [([1, 2], [3, 4]), ([5, 6], [7, 8])] (by decide)⟩

/-- A successful timestamp lookup comes from a slot of the list. -/
theorem lookupSlot_mem {ts : Nat} {l : List (Nat × List Int)} {f : List Int}
    (h : lookupSlot ts l = some f) : (ts, f) ∈ l := by
  induction l with
  | nil => simp [lookupSlot] at h
  | cons sl rest ih =>
    obtain ⟨t, g⟩ := sl
    rw [lookupSlot] at h
    by_cases he : ts = t
    · subst he
      simp at h
      subst h
      exact List.mem_cons_self _ _
    · rw [if_neg he] at h
      exact List.mem_cons_of_mem _ (ih h)

/-- Erasing a slot keeps a sublist: every remaining slot was present. -/
theorem mem_eraseSlot {ts : Nat} {l : List (Nat × List Int)}
    {sl : Nat × List Int} (h : sl ∈ eraseSlot ts l) : sl ∈ l := by
  induction l with
  | nil => simp [eraseSlot] at h
  | cons hd rest ih =>
    obtain ⟨t, g⟩ := hd
    rw [eraseSlot] at h
    by_cases he : t = ts
    · rw [if_pos he] at h
      exact List.mem_cons_of_mem _ (ih h)
    · rw [if_neg he] at h
      rcases List.mem_cons.mp h with h | h
      · exact h ▸ List.mem_cons_self _ _
      · exact List.mem_cons_of_mem _ (ih h)

/-- `getChunk` always advances the cursor by exactly one frame size and
keeps the frame-size configuration. -/
theorem getChunk_cursor (jb : JitterBuffer) :
    jb.getChunk.1.cursor = jb.cursor + jb.frame_size ∧
    jb.getChunk.1.frame_size = jb.frame_size := by
  unfold JitterBuffer.getChunk
  cases lookupSlot jb.cursor jb.slots <;> simp

/-- Under the frame-length invariant, the chunk `getChunk` yields has
exactly the native frame size, and the invariant is preserved. -/
theorem getChunk_len (jb : JitterBuffer)
    (h : ∀ sl ∈ jb.slots, sl.2.length = jb.frame_size) :
    jb.getChunk.2.length = jb.frame_size ∧
    ∀ sl ∈ jb.getChunk.1.slots, sl.2.length = jb.getChunk.1.frame_size := by
  unfold JitterBuffer.getChunk
  cases hl : lookupSlot jb.cursor jb.slots with
  | none => simpa using h
  | some f =>
    refine ⟨h _ (lookupSlot_mem hl), ?_⟩
    intro sl hsl
    exact h sl (mem_eraseSlot hsl)

/-- `getN` advances the cursor by exactly `k` frame sizes and keeps the
frame-size configuration. -/
theorem getN_cursor (k : Nat) (jb : JitterBuffer) :
    (JitterBuffer.getN k jb).1.cursor = jb.cursor + k * jb.frame_size ∧
    (JitterBuffer.getN k jb).1.frame_size = jb.frame_size := by
  induction k generalizing jb with
  | zero => simp [JitterBuffer.getN]
  | succ k ih =>
    rw [JitterBuffer.getN]
    obtain ⟨hc, hf⟩ := getChunk_cursor jb
    obtain ⟨ihc, ihf⟩ := ih jb.getChunk.1
    constructor
    · rw [ihc, hc, hf, Nat.succ_mul]
      omega
    · rw [ihf, hf]

/-- Under the frame-length invariant, `getN k` yields exactly `k` frame
sizes worth of samples. -/
theorem getN_len (k : Nat) (jb : JitterBuffer)
    (h : ∀ sl ∈ jb.slots, sl.2.length = jb.frame_size) :
    (JitterBuffer.getN k jb).2.length = k * jb.frame_size := by
  induction k generalizing jb with
  | zero => simp [JitterBuffer.getN]
  | succ k ih =>
    rw [JitterBuffer.getN]
    obtain ⟨hlen, hinv⟩ := getChunk_len jb h
    obtain ⟨_, hf⟩ := getChunk_cursor jb
    have := ih jb.getChunk.1 (by rw [hf] at hinv ⊢; exact hinv)
    simp only [List.length_append, hlen, this, hf, Nat.succ_mul]
    omega

/-- C3: for every positive multiple `k * frame_size` of the frame size,
`get` returns exactly that many samples — even under total starvation,
every missing chunk being substituted with silence — and advances the
playout cursor by exactly the amount returned, so it is strictly
monotone and no two `get` calls cover overlapping sample-clock ranges. -/
theorem get_exact_samples (jb : JitterBuffer) (k : Nat)
    (hk : 0 < k) (hwf : jb.WF) :
    (jb.get (k * jb.frame_size)).2.length = k * jb.frame_size ∧
    (jb.get (k * jb.frame_size)).1.cursor = jb.cursor + k * jb.frame_size ∧
    jb.cursor < (jb.get (k * jb.frame_size)).1.cursor := by
  obtain ⟨hfs, hinv⟩ := hwf
  unfold JitterBuffer.get
  rw [Nat.mul_div_cancel _ hfs]
  refine ⟨getN_len k jb hinv, (getN_cursor k jb).1, ?_⟩
  rw [(getN_cursor k jb).1]
  have : 0 < k * jb.frame_size := Nat.mul_pos hk hfs
  omega

/-- C3 witness: `get(640)` on the totally starved demo buffer (two
frame sizes, empty slot list) yields exactly 640 samples and moves the
cursor from 0 to 640. -/
theorem get_exact_samples_witness :
    (0 < 2 ∧ demoJB.WF) ∧
    ((demoJB.get (2 * demoJB.frame_size)).2.length = 2 * demoJB.frame_size ∧
     (demoJB.get (2 * demoJB.frame_size)).1.cursor =
       demoJB.cursor + 2 * demoJB.frame_size ∧
     demoJB.cursor < (demoJB.get (2 * demoJB.frame_size)).1.cursor) :=
  ⟨⟨by decide, by decide⟩, get_exact_samples demoJB 2 (by decide) (by decide)⟩

/-- Looking up after inserting a fresh timestamp finds the inserted frame
at that timestamp and leaves every other lookup unchanged. -/
theorem lookupSlot_insertSlot (ts u : Nat) (f : List Int)
    (l : List (Nat × List Int)) (h : lookupSlot ts l = none) :
    lookupSlot u (insertSlot ts f l) =
      if u = ts then some f else lookupSlot u l := by
  induction l with
  | nil => simp [insertSlot, lookupSlot]
  | cons hd rest ih =>
    obtain ⟨t, g⟩ := hd
    rw [lookupSlot] at h
    by_cases hts : ts = t
    · rw [if_pos hts] at h
      exact absurd h (by simp)
    · rw [if_neg hts] at h
      rw [insertSlot]
      by_cases hlt : ts < t
      · rw [if_pos hlt, lookupSlot]
      · rw [if_neg hlt]
        by_cases hu : u = t
        · subst hu
          rw [lookupSlot, if_pos rfl, if_neg (fun he => hts he.symm),
              lookupSlot, if_pos rfl]
        · rw [lookupSlot, if_neg hu, ih h, lookupSlot, if_neg hu]

/-- Erasing one timestamp leaves the lookup of every other timestamp
unchanged. -/
theorem lookupSlot_eraseSlot (ts u : Nat) (l : List (Nat × List Int))
    (h : u ≠ ts) :
    lookupSlot u (eraseSlot ts l) = lookupSlot u l := by
  induction l with
  | nil => rfl
  | cons hd rest ih =>
    obtain ⟨t, g⟩ := hd
    rw [eraseSlot]
    by_cases he : t = ts
    · rw [if_pos he, ih, lookupSlot, if_neg (he ▸ h)]
    · rw [if_neg he, lookupSlot, lookupSlot, ih]

/-- `put` never moves the playout cursor nor changes the frame-size or
target-delay configuration. -/
theorem put_preserves_config (jb : JitterBuffer) (f : List Int) (t q : Nat) :
    (jb.put f t q).cursor = jb.cursor ∧
    (jb.put f t q).frame_size = jb.frame_size ∧
    (jb.put f t q).target_delay = jb.target_delay := by
  unfold JitterBuffer.put
  split
  · simp
  · split <;> simp

/-- A `put` of a fresh, in-window timestamp is accepted: the frame is
inserted at its timestamp position. -/
theorem put_accepted (jb : JitterBuffer) (f : List Int) (t q : Nat)
    (h1 : lookupSlot t jb.slots = none) (h2 : jb.cursor ≤ t) :
    (jb.put f t q).slots = insertSlot t f jb.slots := by
  unfold JitterBuffer.put
  rw [h1]
  simp only [Option.isSome_none, Bool.false_eq_true, if_false]
  rw [if_neg (by omega)]

/-- `putList` never moves the playout cursor nor changes the frame
size. -/
theorem putList_preserves_config (L : List (Nat × Nat × List Int))
    (jb : JitterBuffer) :
    (putList jb L).cursor = jb.cursor ∧
    (putList jb L).frame_size = jb.frame_size := by
  induction L generalizing jb with
  | nil => exact ⟨rfl, rfl⟩
  | cons hd rest ih =>
    obtain ⟨t, q, f⟩ := hd
    rw [putList]
    obtain ⟨c1, f1, _⟩ := put_preserves_config jb f t q
    obtain ⟨c2, f2⟩ := ih (jb.put f t q)
    exact ⟨c2.trans c1, f2.trans f1⟩

/-- A timestamp absent from a packet list finds no frame. -/
theorem findFrame_eq_none {t : Nat} {L : List (Nat × Nat × List Int)}
    (h : t ∉ L.map fun p => p.1) : findFrame t L = none := by
  induction L with
  | nil => rfl
  | cons hd rest ih =>
    obtain ⟨u, q, f⟩ := hd
    simp only [List.map_cons, List.mem_cons] at h
    push_neg at h
    rw [findFrame, if_neg h.1, ih h.2]

/-- With pairwise-distinct timestamps, every packet of the list is found
at its own timestamp. -/
theorem findFrame_of_mem {L : List (Nat × Nat × List Int)} {t q : Nat}
    {f : List Int} (hnd : (L.map fun p => p.1).Nodup) (hm : (t, q, f) ∈ L) :
    findFrame t L = some f := by
  induction L with
  | nil => simp at hm
  | cons hd rest ih =>
    obtain ⟨u, r, g⟩ := hd
    rw [List.map_cons, List.nodup_cons] at hnd
    rcases List.mem_cons.mp hm with he | hm'
    · simp only [Prod.mk.injEq] at he
      obtain ⟨h1, h2, h3⟩ := he
      subst h1
      subst h3
      rw [findFrame, if_pos rfl]
    · have htm : t ∈ rest.map fun p => p.1 :=
        List.mem_map.mpr ⟨(t, q, f), hm', rfl⟩
      have htu : t ≠ u := fun he => hnd.1 (he ▸ htm)
      rw [findFrame, if_neg htu, ih hnd.2 hm']

/-- After feeding a list of in-window packets with pairwise-distinct,
fresh timestamps, a slot lookup finds exactly the frame the packet list
carries at that timestamp, and otherwise what the buffer already held. -/
theorem putList_lookup (L : List (Nat × Nat × List Int)) (jb : JitterBuffer)
    (hcur : ∀ p ∈ L, jb.cursor ≤ p.1)
    (hnodup : (L.map fun p => p.1).Nodup)
    (hfresh : ∀ p ∈ L, lookupSlot p.1 jb.slots = none) (u : Nat) :
    lookupSlot u (putList jb L).slots =
      match findFrame u L with
      | some f => some f
      | none => lookupSlot u jb.slots := by
  induction L generalizing jb with
  | nil => simp [putList, findFrame]
  | cons hd rest ih =>
    obtain ⟨t, q, f⟩ := hd
    have hfr : lookupSlot t jb.slots = none := hfresh _ (List.mem_cons_self _ _)
    have hct : jb.cursor ≤ t := hcur _ (List.mem_cons_self _ _)
    have hslots := put_accepted jb f t q hfr hct
    obtain ⟨hpc, _, _⟩ := put_preserves_config jb f t q
    rw [List.map_cons, List.nodup_cons] at hnodup
    rw [putList]
    have hih := ih (jb.put f t q)
      (fun p hp => hpc ▸ hcur p (List.mem_cons_of_mem _ hp))
      hnodup.2
      (fun p hp => by
        have hne : p.1 ≠ t := fun he => hnodup.1 (by
          rw [← he]
          exact List.mem_map.mpr ⟨p, hp, rfl⟩)
        rw [hslots, lookupSlot_insertSlot t p.1 f jb.slots hfr, if_neg hne]
        exact hfresh p (List.mem_cons_of_mem _ hp))
    rw [hih, findFrame]
    by_cases hu : u = t
    · subst hu
      rw [if_pos rfl, findFrame_eq_none hnodup.1, hslots,
          lookupSlot_insertSlot u u f jb.slots hfr, if_pos rfl]
    · rw [if_neg hu]
      cases findFrame u rest with
      | some g => rfl
      | none =>
        rw [hslots, lookupSlot_insertSlot t u f jb.slots hfr, if_neg hu]

/-- Erasing a slot strictly behind the cursor does not change the playout
stream read from that cursor. -/
theorem chunksFrom_erase (k : Nat) (slots : List (Nat × List Int))
    (ts c fs : Nat) (h : ts < c) :
    chunksFrom (eraseSlot ts slots) c fs k = chunksFrom slots c fs k := by
  induction k generalizing c with
  | zero => rfl
  | succ k ih =>
    rw [chunksFrom, chunksFrom, lookupSlot_eraseSlot ts c slots (by omega),
        ih (c + fs) (by omega)]

/-- `getN` yields exactly the chunk sequence read off the slot list from
the current cursor. -/
theorem getN_chunks (k : Nat) (jb : JitterBuffer) (hfs : 0 < jb.frame_size) :
    (JitterBuffer.getN k jb).2 =
      chunksFrom jb.slots jb.cursor jb.frame_size k := by
  induction k generalizing jb with
  | zero => rfl
  | succ k ih =>
    rw [JitterBuffer.getN, chunksFrom]
    cases hl : lookupSlot jb.cursor jb.slots with
    | none =>
      simp only [JitterBuffer.getChunk, hl]
      rw [ih { jb with underrun_count := jb.underrun_count + 1,
                       cursor := jb.cursor + jb.frame_size } hfs]
    | some f =>
      simp only [JitterBuffer.getChunk, hl]
      rw [ih { jb with slots := eraseSlot jb.cursor jb.slots,
                       cursor := jb.cursor + jb.frame_size } hfs]
      simp only []
      rw [chunksFrom_erase k jb.slots jb.cursor (jb.cursor + jb.frame_size)
            jb.frame_size (by omega)]

/-- Two slot sources with identical lookups yield identical playout
streams. -/
theorem chunksFrom_congr (k : Nat) (slots : List (Nat × List Int))
    (L : List (Nat × Nat × List Int)) (c fs : Nat)
    (h : ∀ t, lookupSlot t slots = findFrame t L) :
    chunksFrom slots c fs k = expectedPlayout L c fs k := by
  induction k generalizing c with
  | zero => rfl
  | succ k ih => rw [chunksFrom, expectedPlayout, h, ih]

/-- C2: feed any list of packets — any arrival permutation — with
pairwise-distinct timestamps, each aligned to the frame grid and inside
the playout window `[cursor, cursor + k * frame_size)`, into an empty
jitter buffer; then `get(k * frame_size)` yields exactly the
ascending-timestamp playout stream: chunk `j` is the inserted frame whose
timestamp is `cursor + j * frame_size`, or silence where none was
inserted, and every inserted frame appears at exactly its own timestamp
position, so each is returned exactly once and in ascending-timestamp
order. -/
theorem jitter_reorder_playout (jb : JitterBuffer)
    (L : List (Nat × Nat × List Int)) (k : Nat)
    (hfs : 0 < jb.frame_size) (hempty : jb.slots = [])
    (hnodup : (L.map fun p => p.1).Nodup)
    (hwin : ∀ p ∈ L, jb.cursor ≤ p.1 ∧
      (p.1 - jb.cursor) % jb.frame_size = 0 ∧
      p.1 < jb.cursor + k * jb.frame_size) :
    ((putList jb L).get (k * jb.frame_size)).2 =
      expectedPlayout L jb.cursor jb.frame_size k ∧
    ∀ p ∈ L, ∃ j, j < k ∧ p.1 = jb.cursor + j * jb.frame_size ∧
      findFrame p.1 L = some p.2.2 := by
  obtain ⟨hpc, hpf⟩ := putList_preserves_config L jb
  have hlook : ∀ u, lookupSlot u (putList jb L).slots = findFrame u L := by
    intro u
    rw [putList_lookup L jb (fun p hp => (hwin p hp).1) hnodup
          (fun p hp => by rw [hempty]; rfl) u]
    cases findFrame u L with
    | some f => rfl
    | none => rw [hempty]; rfl
  constructor
  · rw [JitterBuffer.get, hpf, Nat.mul_div_cancel _ hfs,
        getN_chunks k (putList jb L) (hpf ▸ hfs), hpc, hpf]
    exact chunksFrom_congr k (putList jb L).slots L jb.cursor jb.frame_size hlook
  · intro p hp
    obtain ⟨hle, hmod, hlt⟩ := hwin p hp
    refine ⟨(p.1 - jb.cursor) / jb.frame_size, ?_, ?_, ?_⟩
    · rw [Nat.div_lt_iff_lt_mul hfs]
      omega
    · rw [Nat.div_mul_cancel (Nat.dvd_of_mod_eq_zero hmod)]
      omega
    · obtain ⟨t, q, f⟩ := p
      exact findFrame_of_mem hnodup hp

set_option maxRecDepth 40000 in
/-- C2 witness: the spec's reordered-arrival scenario — timestamp 640
inserted before timestamp 320, both within the delay window — on the
empty demo buffer; `get(960)` still yields the three frames in timestamp
order 0, 320, 640. -/
theorem jitter_reorder_playout_witness :
    (0 < demoJB.frame_size ∧ demoJB.slots = [] ∧
     (reorderScenario.map fun p => p.1).Nodup ∧
     ∀ p ∈ reorderScenario, demoJB.cursor ≤ p.1 ∧
       (p.1 - demoJB.cursor) % demoJB.frame_size = 0 ∧
       p.1 < demoJB.cursor + 3 * demoJB.frame_size) ∧
    (((putList demoJB reorderScenario).get (3 * demoJB.frame_size)).2 =
       expectedPlayout reorderScenario demoJB.cursor demoJB.frame_size 3 ∧
     ∀ p ∈ reorderScenario, ∃ j, j < 3 ∧
       p.1 = demoJB.cursor + j * demoJB.frame_size ∧
       findFrame p.1 reorderScenario = some p.2.2) ∧
    ((putList demoJB reorderScenario).get 960).2 =
      List.replicate 320 1 ++ List.replicate 320 2 ++ List.replicate 320 3 :=
  ⟨⟨by decide, rfl, by decide, by decide⟩,
   jitter_reorder_playout demoJB reorderScenario 3 (by decide) rfl
     (by decide) (by decide),
   by decide⟩
